import Mathlib

/-!
# Verification of the kube-admission-webhook certificate-chain engine

Shallow embedding of the certificate-lifecycle engine of
`qinqon/kube-admission-webhook` (Go), restricted to the parts the claims
are about:

* the chain engine (`pkg/certificate/chain`): deadline arithmetic,
  the `update` decision procedure, rotation and cleanup;
* the options defaulting/validation (`Options.SetDefaultsAndValidate`);
* the Manager-level CA-bundle cleanup (`pkg/certificate/cleanup.go`);
* the persistence adapter's optimistic-concurrency write
  (`writeObjectFromChain`) and service-secret creation
  (`initSecret` / `mapServiceSecretFromChain`);
* the reconciler's requeue-delay computation (`reconcileCertificates`).

Modelling conventions:

* Go `time.Time` instants and `time.Duration` values are embedded as `Int`
  (Go stores both with integer nanosecond precision; `time.Time` comparisons
  `Before`/`After` become `<`/`>` on `Int`).  The Go zero value `time.Time{}`
  is mapped to `0`; realistic instants are positive and all concrete
  witnesses below use positive clocks.
* `nextRotationDeadlineForCert` converts durations through `float64` in the
  source; the conversion is lossless for every duration below 2^53 ns
  (≈ 104 days) and is modelled as exact integer arithmetic.
* X.509 certificates keep exactly the fields the engine reads:
  `NotBefore`, `NotAfter`, the signing key (`issuer`) and the subject name.
* Go maps (`CertificatesIssued`, the named CA bundles) are embedded as
  lists; every operation the claims mention treats the map pointwise, so
  iteration order is irrelevant.
* The cryptographic primitive `triple.VerifyTLS` is abstracted as a boolean
  oracle `vtls` passed to the engine; the structural part of `verifyTLS`
  (last bundle certificate must equal the current CA certificate) is
  embedded faithfully.
* The signing wrappers `triple.NewCA` and `triple.NewServerKeyPair` are
  embedded from `src/unnamed/part_007`; the helpers they call
  (`NewPrivateKey`, `NewSelfSignedCACert`, `NewSignedCert`) are not under
  `src/` and are modelled from the spec (§4.1).
* Go functions that return `error` only on cryptographic-generation failure
  (`triple.NewCA`, `triple.NewServerKeyPair`) are modelled as total.
-/

namespace KAW

/-- An X.509 certificate, keeping the fields the engine reads.  Instants are
`Int` (see module conventions); `issuer` is the key that signed the
certificate; `subject` its common name. -/
structure Cert where
  notBefore : Int
  notAfter : Int
  issuer : Nat
  subject : String
deriving DecidableEq

/-- `triple.KeyPair`: a private key together with its certificate. -/
structure KeyPair where
  key : Nat
  cert : Cert
deriving DecidableEq

/-- `chain.Options`: the four configured durations. -/
structure Options where
  caRotateInterval : Int
  caOverlapInterval : Int
  certRotateInterval : Int
  certOverlapInterval : Int
deriving DecidableEq

/-- `chain.CertificateIssue` (decoded form): the issued certificate list,
its private key, and the named CA bundles used to verify it. -/
structure CertificateIssue where
  name : String
  ips : List String
  hostnames : List String
  key : Nat
  certs : List Cert
  caCerts : List (String × List Cert)
deriving DecidableEq

/-- The `CA` part of `chain.CertificateChainData`. -/
structure CAData where
  name : String
  keyPair : KeyPair
deriving DecidableEq

/-- `chain.CertificateChainData` (decoded form). -/
structure ChainState where
  ca : CAData
  issues : List CertificateIssue
deriving DecidableEq

/-- `OneYearDuration = 365 * 24 * time.Hour`, in nanoseconds. -/
def oneYearDuration : Int := 365 * 24 * 3600 * 1000000000

/-- `triple.AltNames`: the subject-alternative-name sets used by the signing
helpers. -/
structure AltNames where
  ips : List String
  dnsNames : List String
deriving DecidableEq

/-- `triple.Config`: the certificate request passed to the signing helpers
(common name, SANs, extended key usages). -/
structure Config where
  commonName : String
  altNames : AltNames
  usages : List String
deriving DecidableEq

/-- Modelled from the spec: `triple.NewPrivateKey()` is not under `src/`
(only its callers in `src/unnamed/part_007` are).  Per spec §4.1 it
generates an opaque RSA key; key material is irrelevant to the claims and
is modelled as a fixed identifier per generation site. -/
def newPrivateKey (site : Nat) : Nat :=
  site

/-- Modelled from the spec: `triple.NewSelfSignedCACert(config, key,
duration)` is not under `src/` (only its caller `triple.NewCA` in
`src/unnamed/part_007` is).  Per spec §4.1 the self-signed CA certificate
has `NotBefore = now()`, `NotAfter = now() + duration`, is signed by its own
key, and carries the config's common name. -/
def newSelfSignedCACert (config : Config) (key : Nat) (now duration : Int) : Cert :=
  { notBefore := now, notAfter := now + duration, issuer := key, subject := config.commonName }

/-- Modelled from the spec: `triple.NewSignedCert(config, key, caCert,
caKey, duration)` is not under `src/` (only its caller
`triple.NewServerKeyPair` in `src/unnamed/part_007` is).  Per spec §4.1 the
leaf certificate is signed by the CA key, has `NotBefore = now()`,
`NotAfter = now() + duration`, and carries the config's common name. -/
def newSignedCert (config : Config) (_key : Nat) (_caCert : Cert) (caKey : Nat)
    (now duration : Int) : Cert :=
  { notBefore := now, notAfter := now + duration, issuer := caKey, subject := config.commonName }

/-- `triple.NewCA(name, duration)` (`src/unnamed/part_007`): a fresh private
key together with a self-signed CA certificate for `Config{CommonName:
name}`.  (The source returns an error only when key generation or signing
fails; modelled as total.) -/
def newCA (name : String) (now duration : Int) : KeyPair :=
  let key := newPrivateKey 0
  let config : Config := { commonName := name, altNames := { ips := [], dnsNames := [] }, usages := [] }
  { key := key, cert := newSelfSignedCACert config key now duration }

/-- `triple.NewServerKeyPair(ca, commonName, ips, hostnames, duration)`
(`src/unnamed/part_007`): a fresh private key together with a leaf
certificate for the common name and SANs, signed by the CA, with server-auth
usage. -/
def newServerKeyPair (ca : KeyPair) (commonName : String) (ips hostnames : List String)
    (now duration : Int) : KeyPair :=
  let key := newPrivateKey 1
  let config : Config :=
    { commonName := commonName, altNames := { ips := ips, dnsNames := hostnames },
      usages := ["ServerAuth"] }
  { key := key, cert := newSignedCert config key ca.cert ca.key now duration }

/-- `getLastCert`: last certificate of a list, `nil` (`none`) when empty. -/
def getLastCert (certs : List Cert) : Option Cert :=
  certs.getLast?

/-- `minTime(values...)`: the Go loop takes the first element and replaces it
whenever a later element is `Before` it; the empty call returns the zero
`time.Time{}`, modelled as `0`. -/
def minTime (values : List Int) : Int :=
  match values with
  | [] => 0
  | t :: rest => rest.foldl (fun t e => if e < t then e else t) t

/-- `nextRotationDeadlineForCert(certificate, overlap)`:
`NotBefore + (NotAfter - NotBefore) - overlap` (source converts through
`float64`; modelled exactly). -/
def nextRotationDeadlineForCert (c : Cert) (overlap : Int) : Int :=
  c.notBefore + ((c.notAfter - c.notBefore) - overlap)

/-- Rotation deadline of one CA bundle (or one issued-certificate list):
`none` when the list is empty, in which case the source returns an
immediate (zero) deadline for the whole chain. -/
def listRotationDeadline (overlap : Int) (certs : List Cert) : Option Int :=
  (getLastCert certs).map (fun c => nextRotationDeadlineForCert c overlap)

/-- `findRotationDeadlineForCA`: earliest rotation deadline over the last
certificate of every named CA bundle of every issue; an empty bundle makes
the whole result the immediate (zero) deadline. -/
def findRotationDeadlineForCA (opts : Options) (s : ChainState) : Int :=
  let ds := s.issues.flatMap fun iss =>
    iss.caCerts.map fun b => listRotationDeadline opts.caOverlapInterval b.2
  if ds.any Option.isNone then 0 else minTime (ds.filterMap id)

/-- `findRotationDeadlineForCerts`: earliest rotation deadline over the last
certificate of every issue's certificate list; an empty list makes the whole
result the immediate (zero) deadline. -/
def findRotationDeadlineForCerts (opts : Options) (s : ChainState) : Int :=
  let ds := s.issues.map fun iss => listRotationDeadline opts.certOverlapInterval iss.certs
  if ds.any Option.isNone then 0 else minTime (ds.filterMap id)

/-- `findCleanUpDeadlineForCertList`: earliest `NotAfter` over a list. -/
def findCleanUpDeadlineForCertList (certs : List Cert) : Int :=
  minTime (certs.map (·.notAfter))

/-- `findCleanUpDeadlineForCACerts`: earliest `NotAfter` over ALL certificates
of ALL named CA bundles of ALL issues. -/
def findCleanUpDeadlineForCACerts (s : ChainState) : Int :=
  findCleanUpDeadlineForCertList (s.issues.flatMap fun iss => iss.caCerts.flatMap (·.2))

/-- `findCleanUpDeadlineForCerts`: earliest `NotAfter` over ALL issued
certificates of ALL issues. -/
def findCleanUpDeadlineForCerts (s : ChainState) : Int :=
  findCleanUpDeadlineForCertList (s.issues.flatMap (·.certs))

/-- `certificateChain.cleanUpCertificateList` (chain engine): lists of length
at most 1 are returned unchanged; otherwise the loop keeps exactly the
certificates whose `NotAfter` is after `now`. -/
def cleanUpCertificateList (now : Int) (certificates : List Cert) : List Cert :=
  if certificates.length ≤ 1 then certificates
  else certificates.filter (fun c => now < c.notAfter)

/-- `cleanUpCACerts`: apply `cleanUpCertificateList` to every named CA bundle
of every issue. -/
def cleanUpCACerts (now : Int) (s : ChainState) : ChainState :=
  { s with issues := s.issues.map fun iss =>
      { iss with caCerts := iss.caCerts.map fun b => (b.1, cleanUpCertificateList now b.2) } }

/-- `cleanUpCerts`: apply `cleanUpCertificateList` to every issue's
certificate list. -/
def cleanUpCerts (now : Int) (s : ChainState) : ChainState :=
  { s with issues := s.issues.map fun iss =>
      { iss with certs := cleanUpCertificateList now iss.certs } }

/-- `setCaKeyPair`: install a new CA key pair and append its certificate to
every named CA bundle of every issue. -/
def setCaKeyPair (kp : KeyPair) (s : ChainState) : ChainState :=
  { ca := { s.ca with keyPair := kp },
    issues := s.issues.map fun iss =>
      { iss with caCerts := iss.caCerts.map fun b => (b.1, b.2 ++ [kp.cert]) } }

/-- `setKeyResetCert`: install a key pair on an issue, REPLACING the
certificate list. -/
def setKeyResetCert (iss : CertificateIssue) (kp : KeyPair) : CertificateIssue :=
  { iss with key := kp.key, certs := [kp.cert] }

/-- `setKeyAppendCert`: install a key pair on an issue, APPENDING to the
certificate list. -/
def setKeyAppendCert (iss : CertificateIssue) (kp : KeyPair) : CertificateIssue :=
  { iss with key := kp.key, certs := iss.certs ++ [kp.cert] }

/-- `rotateCerts(applyFn)`: mint a fresh leaf for every issue with the
current CA and `CertRotateInterval`, installing it with `applyFn`. -/
def rotateCerts (applyFn : CertificateIssue → KeyPair → CertificateIssue)
    (opts : Options) (now : Int) (s : ChainState) : ChainState :=
  { s with issues := s.issues.map fun iss =>
      applyFn iss (newServerKeyPair s.ca.keyPair iss.name iss.ips iss.hostnames now
        opts.certRotateInterval) }

/-- `rotateCertsWithoutOverlap`: re-issue every leaf, replacing the lists. -/
def rotateCertsWithoutOverlap (opts : Options) (now : Int) (s : ChainState) : ChainState :=
  rotateCerts setKeyResetCert opts now s

/-- `rotateCertsWithOverlap`: re-issue every leaf, appending to the lists. -/
def rotateCertsWithOverlap (opts : Options) (now : Int) (s : ChainState) : ChainState :=
  rotateCerts setKeyAppendCert opts now s

/-- `rotateAll`: mint a fresh CA with `CARotateInterval`, install it
(appending its certificate to every bundle), then re-issue every leaf
without overlap. -/
def rotateAll (opts : Options) (now : Int) (s : ChainState) : ChainState :=
  rotateCertsWithoutOverlap opts now (setCaKeyPair (newCA s.ca.name now opts.caRotateInterval) s)

/-- `certificateChain.verifyTLS` as a boolean: for every issue and every
named CA bundle, the last bundle certificate must equal the current CA
certificate (`reflect.DeepEqual`), and the cryptographic check
`triple.VerifyTLS` — abstracted as the oracle `vtls` — must succeed. -/
def verifyTLSB (vtls : CertificateIssue → String → Bool) (s : ChainState) : Bool :=
  s.issues.all fun iss => iss.caCerts.all fun b =>
    (getLastCert b.2 == some s.ca.keyPair.cert) && vtls iss b.1

/-- The rotation steps of `certificateChain.update` (its lines up to the
`rotateCA` / `rotateCerts` branches): returns the possibly-rotated state
together with the CA and leaf rotation deadlines as the procedure holds them
afterwards (recomputed only on the branches the source recomputes them). -/
def rotationPhase (vtls : CertificateIssue → String → Bool) (opts : Options)
    (now : Int) (s : ChainState) : ChainState × Int × Int :=
  let deadlineToRotateCA := findRotationDeadlineForCA opts s
  let deadlineToRotateCerts := findRotationDeadlineForCerts opts s
  let rotateCA := !decide (now < deadlineToRotateCA)
  let rotateCerts := !decide (now < deadlineToRotateCerts)
  -- "if !rotateCA { if verifyTLS() fails { rotateCA = true } }"
  let rotateCA := rotateCA || !verifyTLSB vtls s
  if rotateCA then
    let s1 := rotateAll opts now s
    (s1, findRotationDeadlineForCA opts s1, findRotationDeadlineForCerts opts s1)
  else if rotateCerts then
    let s1 := rotateCertsWithOverlap opts now s
    (s1, deadlineToRotateCA, findRotationDeadlineForCerts opts s1)
  else
    (s, deadlineToRotateCA, deadlineToRotateCerts)

/-- The CA-bundle cleanup step of `certificateChain.update`: clean up when
`now` is at or past the CA cleanup deadline, returning the new state and the
deadline as held afterwards (recomputed only when cleanup ran). -/
def caCleanupPhase (now : Int) (s : ChainState) : ChainState × Int :=
  let deadlineToCleanUpCACerts := findCleanUpDeadlineForCACerts s
  if !decide (now < deadlineToCleanUpCACerts) then
    let s1 := cleanUpCACerts now s
    (s1, findCleanUpDeadlineForCACerts s1)
  else
    (s, deadlineToCleanUpCACerts)

/-- The issued-certificates cleanup step of `certificateChain.update`. -/
def certCleanupPhase (now : Int) (s : ChainState) : ChainState × Int :=
  let deadlineToCleanUpCerts := findCleanUpDeadlineForCerts s
  if !decide (now < deadlineToCleanUpCerts) then
    let s1 := cleanUpCerts now s
    (s1, findCleanUpDeadlineForCerts s1)
  else
    (s, deadlineToCleanUpCerts)

/-- `certificateChain.update`: the decision procedure.  Returns the updated
chain state and `updateAt`, the minimum of the four deadlines as held at the
end of the procedure.  (The source returns an error only when key-pair
generation fails, which the model treats as total.) -/
def update (vtls : CertificateIssue → String → Bool) (opts : Options)
    (now : Int) (s : ChainState) : ChainState × Int :=
  let r := rotationPhase vtls opts now s
  let c := caCleanupPhase now r.1
  let cc := certCleanupPhase now c.1
  (cc.1, minTime [r.2.1, r.2.2, c.2, cc.2])

/-- The path `certificateChain.update` takes when `rotateCA` holds (either
because the CA rotation deadline has passed or because TLS verification
failed): `rotateAll`, recompute both rotation deadlines, then the two
cleanup phases. -/
def updateForcedCA (opts : Options) (now : Int) (s : ChainState) : ChainState × Int :=
  let s1 := rotateAll opts now s
  let c := caCleanupPhase now s1
  let cc := certCleanupPhase now c.1
  (cc.1, minTime [findRotationDeadlineForCA opts s1, findRotationDeadlineForCerts opts s1,
    c.2, cc.2])

/-- `Options.validate`: error strings for the three rejected relations. -/
def Options.validate (o : Options) : Except String Unit :=
  if o.caOverlapInterval > o.caRotateInterval then
    .error "CAOverlapInterval has to be <= CARotateInterval"
  else if o.certRotateInterval > o.caRotateInterval then
    .error "CertRotateInterval has to be <= CARotateInterval"
  else if o.certOverlapInterval > o.certRotateInterval then
    .error "CertOverlapInterval has to be <= CertRotateInterval"
  else .ok ()

/-- `Options.withDefaults`: every zero-valued interval cascades from its
parent; a zero `CARotateInterval` defaults to one year. -/
def Options.withDefaults (o : Options) : Options :=
  let caRotate := if o.caRotateInterval = 0 then oneYearDuration else o.caRotateInterval
  let caOverlap := if o.caOverlapInterval = 0 then caRotate else o.caOverlapInterval
  let certRotate := if o.certRotateInterval = 0 then caRotate else o.certRotateInterval
  let certOverlap := if o.certOverlapInterval = 0 then certRotate else o.certOverlapInterval
  { caRotateInterval := caRotate, caOverlapInterval := caOverlap,
    certRotateInterval := certRotate, certOverlapInterval := certOverlap }

/-- `Options.SetDefaultsAndValidate`: apply defaults, validate, and return
the defaulted options on success (the source assigns them back through the
receiver pointer only on success). -/
def Options.setDefaultsAndValidate (o : Options) : Except String Options :=
  match o.withDefaults.validate with
  | .error e => .error e
  | .ok _ => .ok o.withDefaults

/-- `chain.Update(options, data)`: validate the options (as `newChain` does
through `SetDefaultsAndValidate`) and run the decision procedure. -/
def chainUpdate (vtls : CertificateIssue → String → Bool) (opts : Options)
    (now : Int) (s : ChainState) : Except String (ChainState × Int) :=
  match opts.setDefaultsAndValidate with
  | .error e => .error e
  | .ok o => .ok (update vtls o now s)

/-- `Manager.reconcileCertificates`: read the chain (modelled as being given
the chain state `s` the read produced), run `chain.Update`, write back
(write errors are out of scope of the studied claims), and return
`reconcileAt.Sub(triple.Now())` — the predicted update time minus the
current clock, with no clamping. -/
def reconcileCertificates (vtls : CertificateIssue → String → Bool)
    (opts : Options) (now : Int) (s : ChainState) : Except String Int :=
  match chainUpdate vtls opts now s with
  | .error e => .error e
  | .ok (_, reconcileAt) => .ok (reconcileAt - now)

/-- `Manager.Reconcile`: on success wraps the delay from
`reconcileCertificates` as the `RequeueAfter` of the result. -/
def Reconcile (vtls : CertificateIssue → String → Bool)
    (opts : Options) (now : Int) (s : ChainState) : Except String Int :=
  reconcileCertificates vtls opts now s

/-- `Manager.cleanUpCertificates` (`pkg/certificate/cleanup.go`), the loop
body: Go iterates with an index and treats the last position specially, which
is modelled by structural recursion where the singleton case is the last
element.  A certificate is dropped when it is expired (`now.After(NotAfter)`,
strict), or when it is not in the last position and
`NotBefore + overlapDuration ≤ now`. -/
def cleanUpCertificatesGo (now overlapDuration : Int) : List Cert → List Cert
  | [] => []
  | [c] => if c.notAfter < now then [] else [c]
  | c :: c2 :: rest =>
    if c.notAfter < now ∨ c.notBefore + overlapDuration ≤ now then
      cleanUpCertificatesGo now overlapDuration (c2 :: rest)
    else
      c :: cleanUpCertificatesGo now overlapDuration (c2 :: rest)

/-- `Manager.cleanUpCertificates`: lists of length at most 1 are returned
unchanged ("there is no overlap"); otherwise run the loop. -/
def cleanUpCertificates (now overlapDuration : Int) (certificates : List Cert) : List Cert :=
  if certificates.length ≤ 1 then certificates
  else cleanUpCertificatesGo now overlapDuration certificates

/-- Outcome of one `writeObjectFromChain` call. -/
inductive WriteOutcome (Obj : Type) where
  | noop
  | conflict
  | create (o : Obj)
  | updated (o : Obj)
deriving DecidableEq

/-- `Manager.writeObjectFromChain` over an abstract object type:
`old` is the object as held since the read phase (its pre-read snapshot,
deep-copied by the source), `stored` the result of refetching it from the
store (`none` models not-found, in which case the in-memory object keeps its
old contents), and `fromChain` the kind-specific `fromChainMapper`.
The source skips when the mapped object equals the snapshot, fails with a
conflict error when the refetched state differs from the snapshot, and
otherwise creates (absent) or updates (present). -/
def writeObjectFromChain {Obj : Type} [DecidableEq Obj]
    (fromChain : Obj → Obj) (stored : Option Obj) (old : Obj) : WriteOutcome Obj :=
  let isNew := stored.isNone
  let current := stored.getD old
  let mapped := fromChain current
  if mapped = old then .noop
  else if current ≠ old then .conflict
  else if isNew then .create mapped else .updated mapped

/-- Store effect of a `WriteOutcome` on the object's slot. -/
def applyWrite {Obj : Type} (stored : Option Obj) : WriteOutcome Obj → Option Obj
  | .noop => stored
  | .conflict => stored
  | .create o => some o
  | .updated o => some o

/-- The annotation marking engine-managed secrets. -/
def secretManagedAnnotationKey : String := "kubevirt.io/kube-admission-webhook"

/-- A Kubernetes `Secret` restricted to the fields the adapter writes. -/
structure KSecret where
  name : String
  ns : String
  typ : String
  annotations : List (String × String)
  ownerRefs : List String
  data : List (String × String)
deriving DecidableEq

/-- `initSecret`: the creator registered for the `Secret` kind; a fresh
object carrying only the engine annotation. -/
def initSecret (name ns : String) : KSecret :=
  { name := name, ns := ns, typ := "",
    annotations := [(secretManagedAnnotationKey, "")], ownerRefs := [], data := [] }

/-- `serviceHostname(name, namespace) = name.namespace.svc`. -/
def serviceHostname (name ns : String) : String :=
  name ++ "." ++ ns ++ ".svc"

/-- PEM view of a `CertificateIssue` as the adapter reads it (PEM byte
slices modelled as strings). -/
structure PemIssue where
  keyPEM : String
  certPEM : String
deriving DecidableEq

/-- Assoc-list update of one data key, preserving the other entries. -/
def upsert (k v : String) (l : List (String × String)) : List (String × String) :=
  if l.any (·.1 = k) then l.map (fun p => if p.1 = k then (k, v) else p)
  else l ++ [(k, v)]

/-- `mapServiceSecretFromChain`: look the issue up by the computed service
hostname; when absent leave the secret alone, otherwise set
`type = kubernetes.io/tls` and store the issue's key and certificate PEMs
under `tls.key` / `tls.crt`. -/
def mapServiceSecretFromChain (chainIssues : List (String × PemIssue))
    (secret : KSecret) : KSecret :=
  match chainIssues.lookup (serviceHostname secret.name secret.ns) with
  | none => secret
  | some bundle =>
    { secret with
        typ := "kubernetes.io/tls",
        data := upsert "tls.crt" bundle.certPEM (upsert "tls.key" bundle.keyPEM secret.data) }

/-- Stated from the claim C1's words, for comparison with the source:
drop every certificate whose `NotAfter ≤ now` AND every non-final entry
whose `NotBefore + CAOverlapInterval ≤ now`; always retain the final
entry. -/
def claimC1CleanUp (now overlap : Int) (certs : List Cert) : List Cert :=
  certs.dropLast.filter (fun c => decide (now < c.notAfter) && decide (now < c.notBefore + overlap))
    ++ (certs.getLast?).toList

/-- Stated from the claim C2's words, for comparison with the source: the
minimum of the CA rotation deadline, the leaf rotation deadline, the CA
cleanup deadline over all bundle entries EXCEPT the current CA, and the leaf
cleanup deadline over non-final entries only (an empty deadline set giving
an immediate wakeup at `now`, per spec §4.2.2). -/
def claimC2NextWakeup (opts : Options) (now : Int) (s : ChainState) : Int :=
  let caCleanupSet := (s.issues.flatMap fun iss => iss.caCerts.flatMap (·.2)).filter
    (fun c => c ≠ s.ca.keyPair.cert)
  let leafCleanupSet := s.issues.flatMap fun iss => iss.certs.dropLast
  minTime [findRotationDeadlineForCA opts s, findRotationDeadlineForCerts opts s,
    if caCleanupSet.isEmpty then now else findCleanUpDeadlineForCertList caCleanupSet,
    if leafCleanupSet.isEmpty then now else findCleanUpDeadlineForCertList leafCleanupSet]

/-- A TLS-verification oracle that always succeeds. -/
def vtlsOk : CertificateIssue → String → Bool := fun _ _ => true

/-- A TLS-verification oracle that always fails. -/
def vtlsFail : CertificateIssue → String → Bool := fun _ _ => false

/-- Concrete options: `CARotate=1000`, `CAOverlap=2`, `CertRotate=1000`,
`CertOverlap=3` (valid, all nonzero). -/
def optsC1 : Options :=
  { caRotateInterval := 1000, caOverlapInterval := 2,
    certRotateInterval := 1000, certOverlapInterval := 3 }

/-- Concrete CA-bundle entry that is already expired at clock 10. -/
def certA : Cert := { notBefore := 0, notAfter := 8, issuer := 0, subject := "a" }

/-- Concrete CA-bundle entry past its overlap window at clock 10 but not
expired. -/
def certB : Cert := { notBefore := 0, notAfter := 300, issuer := 0, subject := "b" }

/-- Concrete current CA certificate. -/
def certCur : Cert := { notBefore := 5, notAfter := 1000, issuer := 0, subject := "ca" }

/-- Concrete issued leaf certificate. -/
def certLeaf : Cert := { notBefore := 0, notAfter := 500, issuer := 0, subject := "s.ns.svc" }

/-- Concrete chain state: one issue, one named bundle `[certA, certB, certCur]`,
leaf list `[certLeaf]`, current CA `certCur`. -/
def stateC1 : ChainState :=
  { ca := { name := "ca", keyPair := { key := 0, cert := certCur } },
    issues := [{ name := "s.ns.svc", ips := [], hostnames := [], key := 0,
                 certs := [certLeaf], caCerts := [("b", [certA, certB, certCur])] }] }

/-- Concrete options: `CARotate=100`, `CAOverlap=10`, `CertRotate=100`,
`CertOverlap=10` (valid, all nonzero, fixed by defaulting). -/
def optsC2 : Options :=
  { caRotateInterval := 100, caOverlapInterval := 10,
    certRotateInterval := 100, certOverlapInterval := 10 }

/-- Concrete current CA certificate for the deadline counterexample. -/
def certCA2 : Cert := { notBefore := 0, notAfter := 200, issuer := 0, subject := "ca" }

/-- Concrete issued leaf for the deadline counterexample. -/
def certLeaf2 : Cert := { notBefore := 0, notAfter := 70, issuer := 0, subject := "s.ns.svc" }

/-- Concrete chain state: one issue with singleton bundle `[certCA2]` and
singleton leaf list `[certLeaf2]`; nothing rotates or is cleaned at
clock 50. -/
def stateC2 : ChainState :=
  { ca := { name := "ca", keyPair := { key := 0, cert := certCA2 } },
    issues := [{ name := "s.ns.svc", ips := [], hostnames := [], key := 0,
                 certs := [certLeaf2], caCerts := [("b", [certCA2])] }] }

/-- Concrete chain state with no issues at all (every managed webhook was
dropped for having no backing-service reference). -/
def stateEmpty : ChainState :=
  { ca := { name := "ca", keyPair := { key := 0, cert := certCA2 } }, issues := [] }

/-- Concrete PEM chain data for the service-secret creation claim. -/
def chainIssuesC8 : List (String × PemIssue) :=
  [("svc.ns.svc", { keyPEM := "KEYPEM", certPEM := "CERTPEM" })]

/-- The secret the adapter creates from `chainIssuesC8` for service
`svc/ns`. -/
def secC8 : KSecret :=
  { name := "svc", ns := "ns", typ := "kubernetes.io/tls",
    annotations := [(secretManagedAnnotationKey, "")], ownerRefs := [],
    data := [("tls.key", "KEYPEM"), ("tls.crt", "CERTPEM")] }

/-- Concrete singleton certificate list whose only entry is expired at
clock 10. -/
def expiredSingleton : List Cert :=
  [{ notBefore := 0, notAfter := 5, issuer := 0, subject := "only" }]

/-- Every nonempty named CA bundle ends in a certificate that is not yet
expired at `now`.  This holds after the rotation steps of `update` and makes
the CA-bundle cleanup preserve every bundle's last entry. -/
def lastFreshCA (now : Int) (s : ChainState) : Prop :=
  ∀ iss ∈ s.issues, ∀ b ∈ iss.caCerts, ∀ c, b.2.getLast? = some c → now < c.notAfter

/-- Every nonempty issued-certificate list ends in a certificate that is not
yet expired at `now`. -/
def lastFreshCerts (now : Int) (s : ChainState) : Prop :=
  ∀ iss ∈ s.issues, ∀ c, iss.certs.getLast? = some c → now < c.notAfter

/-- C6: `SetDefaultsAndValidate` cascades every zero-valued interval from
its parent (`CAOverlap ← CARotate`, `CertRotate ← CARotate`,
`CertOverlap ← CertRotate`, and a zero `CARotate` defaults to 365 days),
and errors exactly when, after defaulting, an overlap exceeds its rotate
interval or `CertRotate` exceeds `CARotate`; in particular
`CertOverlap > CertRotate` is rejected. -/
theorem C6_setDefaultsAndValidate (o : Options) :
    o.withDefaults.caRotateInterval =
      (if o.caRotateInterval = 0 then oneYearDuration else o.caRotateInterval) ∧
    o.withDefaults.caOverlapInterval =
      (if o.caOverlapInterval = 0 then o.withDefaults.caRotateInterval else o.caOverlapInterval) ∧
    o.withDefaults.certRotateInterval =
      (if o.certRotateInterval = 0 then o.withDefaults.caRotateInterval else o.certRotateInterval) ∧
    o.withDefaults.certOverlapInterval =
      (if o.certOverlapInterval = 0 then o.withDefaults.certRotateInterval else o.certOverlapInterval) ∧
    (o.setDefaultsAndValidate = .ok o.withDefaults ↔
      ¬(o.withDefaults.caOverlapInterval > o.withDefaults.caRotateInterval ∨
        o.withDefaults.certRotateInterval > o.withDefaults.caRotateInterval ∨
        o.withDefaults.certOverlapInterval > o.withDefaults.certRotateInterval)) ∧
    ((∃ e, o.setDefaultsAndValidate = .error e) ↔
      (o.withDefaults.caOverlapInterval > o.withDefaults.caRotateInterval ∨
        o.withDefaults.certRotateInterval > o.withDefaults.caRotateInterval ∨
        o.withDefaults.certOverlapInterval > o.withDefaults.certRotateInterval)) := by
  refine ⟨rfl, rfl, rfl, rfl, ?_, ?_⟩ <;>
    · unfold Options.setDefaultsAndValidate Options.validate
      split_ifs with h1 h2 h3 <;> simp_all

/-- C10: the chain engine's cleanup returns lists of length at most one
unchanged; in particular a sole remaining certificate is never removed even
when expired, so cleanup alone never empties a singleton list. -/
theorem C10_cleanup_short_lists (now : Int) (l : List Cert) (h : l.length ≤ 1) :
    cleanUpCertificateList now l = l := by
  simp [cleanUpCertificateList, h]

/-- Witness for C10 at a concrete expired singleton. -/
theorem C10_witness :
    expiredSingleton.length ≤ 1 ∧
    cleanUpCertificateList 10 expiredSingleton = expiredSingleton :=
  ⟨by decide, C10_cleanup_short_lists 10 expiredSingleton (by decide)⟩

theorem cleanUpCertificatesGo_idem (now overlap : Int) (l : List Cert) :
    cleanUpCertificatesGo now overlap (cleanUpCertificatesGo now overlap l) =
      cleanUpCertificatesGo now overlap l := by
  induction l with
  | nil => rfl
  | cons c rest ih =>
    cases rest with
    | nil =>
      by_cases h : c.notAfter < now <;> simp [cleanUpCertificatesGo, h]
    | cons c2 t =>
      rw [cleanUpCertificatesGo]
      by_cases h : c.notAfter < now ∨ c.notBefore + overlap ≤ now
      · simpa [h] using ih
      · simp only [h, if_false]
        rcases hL : cleanUpCertificatesGo now overlap (c2 :: t) with _ | ⟨d, t2⟩
        · have hne : ¬ c.notAfter < now := fun hc => h (Or.inl hc)
          simp [cleanUpCertificatesGo, hne]
        · rw [cleanUpCertificatesGo, if_neg h, ← hL, ih, hL]

theorem cleanUpCertificateList_idem (now : Int) (l : List Cert) :
    cleanUpCertificateList now (cleanUpCertificateList now l) =
      cleanUpCertificateList now l := by
  unfold cleanUpCertificateList
  by_cases h : l.length ≤ 1
  · simp [h]
  · simp only [h, if_false]
    by_cases h2 : (l.filter (fun c => now < c.notAfter)).length ≤ 1
    · simp [h2]
    · simp [h2, List.filter_filter]

/-- C9: both cleanup functions — the chain engine's expiry-only
`cleanUpCertificateList` and the Manager's overlap-aware
`cleanUpCertificates` — are idempotent for every certificate list, clock and
overlap duration. -/
theorem C9_cleanup_idempotent :
    (∀ (now : Int) (l : List Cert),
      cleanUpCertificateList now (cleanUpCertificateList now l) =
        cleanUpCertificateList now l) ∧
    (∀ (now overlap : Int) (l : List Cert),
      cleanUpCertificates now overlap (cleanUpCertificates now overlap l) =
        cleanUpCertificates now overlap l) := by
  refine ⟨cleanUpCertificateList_idem, fun now overlap l => ?_⟩
  unfold cleanUpCertificates
  by_cases h : l.length ≤ 1
  · simp [h]
  · simp only [h, if_false]
    by_cases h2 : (cleanUpCertificatesGo now overlap l).length ≤ 1
    · simp [h2]
    · simp [h2, cleanUpCertificatesGo_idem]

/-- C5: `writeObjectFromChain` skips (and leaves the store alone) when the
mapped object equals the pre-read snapshot; otherwise fails with a conflict
(leaving the store alone) when the refetched state disagrees with the
snapshot; otherwise creates when absent and updates when present. -/
theorem C5_writeObjectFromChain_cas {Obj : Type} [DecidableEq Obj]
    (fromChain : Obj → Obj) (stored : Option Obj) (old : Obj) :
    (fromChain (stored.getD old) = old →
      writeObjectFromChain fromChain stored old = .noop ∧
      applyWrite stored (writeObjectFromChain fromChain stored old) = stored) ∧
    (fromChain (stored.getD old) ≠ old → stored.getD old ≠ old →
      writeObjectFromChain fromChain stored old = .conflict ∧
      applyWrite stored (writeObjectFromChain fromChain stored old) = stored) ∧
    (fromChain (stored.getD old) ≠ old → stored.getD old = old → stored = none →
      writeObjectFromChain fromChain stored old = .create (fromChain (stored.getD old))) ∧
    (fromChain (stored.getD old) ≠ old → stored.getD old = old → ∀ x, stored = some x →
      writeObjectFromChain fromChain stored old = .updated (fromChain (stored.getD old))) := by
  refine ⟨fun h1 => ?_, fun h1 h2 => ?_, fun h1 h2 h3 => ?_, fun h1 h2 x h3 => ?_⟩
  · have hw : writeObjectFromChain fromChain stored old = .noop := by
      simp [writeObjectFromChain, h1]
    exact ⟨hw, by rw [hw]; rfl⟩
  · have hw : writeObjectFromChain fromChain stored old = .conflict := by
      simp [writeObjectFromChain, h1, h2]
    exact ⟨hw, by rw [hw]; rfl⟩
  · subst h3
    simp_all [writeObjectFromChain]
  · subst h3
    simp_all [writeObjectFromChain]

/-- Witness for C5: concrete create case over `Obj = Nat`. -/
theorem C5_witness :
    writeObjectFromChain (fun _ => (7 : Nat)) none 5 = .create 7 :=
  (C5_writeObjectFromChain_cas (fun _ => (7 : Nat)) none 5).2.2.1 (by decide) rfl rfl

/-- C4: `rotateAll` installs the freshly minted CA as the chain's key pair,
appends its certificate as the new last entry of every named CA bundle of
every issue, and replaces every issue's certificate list with exactly the
one freshly issued leaf (signed by the new CA, carrying its key). -/
theorem C4_rotateAll_appends_ca_and_replaces_leaves (opts : Options) (now : Int) (s : ChainState) :
    (rotateAll opts now s).ca.keyPair = newCA s.ca.name now opts.caRotateInterval ∧
    (rotateAll opts now s).issues = s.issues.map (fun iss =>
      let kp := newCA s.ca.name now opts.caRotateInterval
      let leaf := newServerKeyPair kp iss.name iss.ips iss.hostnames now opts.certRotateInterval
      { iss with key := leaf.key, certs := [leaf.cert],
                 caCerts := iss.caCerts.map (fun b => (b.1, b.2 ++ [kp.cert])) }) := by
  constructor
  · rfl
  · simp only [rotateAll, rotateCertsWithoutOverlap, rotateCerts, setCaKeyPair,
      setKeyResetCert, List.map_map]
    rfl

/-- C3: when the CA rotation deadline has not been reached but TLS
verification fails, `update` takes exactly the same rotate-all path it takes
when the deadline has passed (minting a fresh CA and re-issuing every leaf),
and no verification error is surfaced. -/
theorem C3_verify_failure_forces_rotation
    (vtls : CertificateIssue → String → Bool) (opts : Options) (now : Int) (s : ChainState)
    (hdl : now < findRotationDeadlineForCA opts s)
    (hv : verifyTLSB vtls s = false) :
    update vtls opts now s = updateForcedCA opts now s ∧
    ∀ (vtls2 : CertificateIssue → String → Bool) (now2 : Int) (s2 : ChainState),
      ¬ now2 < findRotationDeadlineForCA opts s2 →
      update vtls2 opts now2 s2 = updateForcedCA opts now2 s2 := by
  constructor
  · simp [update, rotationPhase, updateForcedCA, hdl, hv]
  · intro vtls2 now2 s2 h
    simp [update, rotationPhase, updateForcedCA, h]

/-- Witness for C3: at a concrete state whose CA rotation deadline is ahead,
a failing verification oracle makes `update` equal the forced-rotation
path. -/
theorem C3_witness :
    (50 : Int) < findRotationDeadlineForCA optsC2 stateC2 ∧
    verifyTLSB vtlsFail stateC2 = false ∧
    update vtlsFail optsC2 50 stateC2 = updateForcedCA optsC2 50 stateC2 :=
  ⟨by decide, by decide,
    (C3_verify_failure_forces_rotation vtlsFail optsC2 50 stateC2 (by decide) (by decide)).1⟩

/-- Counterexample to C1 as stated: at clock 10 with `CAOverlapInterval = 2`,
`update` decides CA-bundle cleanup (deadline 8 ≤ 10) on the bundle
`[certA, certB, certCur]`, yet it keeps `certB` even though
`certB.notBefore + 2 ≤ 10` — the claimed overlap-based drop does not
happen; the claimed result would be `[certCur]`. -/
theorem C1_counterexample :
    (10 : Int) < findRotationDeadlineForCA optsC1 stateC1 ∧
    (10 : Int) < findRotationDeadlineForCerts optsC1 stateC1 ∧
    verifyTLSB vtlsOk stateC1 = true ∧
    ¬ (10 : Int) < findCleanUpDeadlineForCACerts stateC1 ∧
    (update vtlsOk optsC1 10 stateC1).1.issues.map (·.caCerts) = [[("b", [certB, certCur])]] ∧
    claimC1CleanUp 10 optsC1.caOverlapInterval [certA, certB, certCur] = [certCur] ∧
    ([certB, certCur] : List Cert) ≠ [certCur] := by
  refine ⟨by decide, by decide, by decide, by decide, by decide, by decide, by decide⟩

theorem certCleanupPhase_caCerts (now : Int) (s : ChainState) :
    ((certCleanupPhase now s).1).issues.map (·.caCerts) = s.issues.map (·.caCerts) := by
  unfold certCleanupPhase
  by_cases h : now < findCleanUpDeadlineForCerts s
  · simp [h]
  · simp [h, cleanUpCerts, List.map_map]

/-- C1 amended: when `update` decides CA-bundle cleanup (and nothing
rotates), every named CA bundle with at least two entries is replaced by
exactly its certificates whose `NotAfter` is after `now` — the final entry
included, and with no overlap-based drop — while bundles with at most one
entry are left unchanged. -/
theorem C1_chain_cleanup
    (vtls : CertificateIssue → String → Bool) (opts : Options) (now : Int) (s : ChainState)
    (hCA : now < findRotationDeadlineForCA opts s)
    (hCerts : now < findRotationDeadlineForCerts opts s)
    (hv : verifyTLSB vtls s = true)
    (hclean : ¬ now < findCleanUpDeadlineForCACerts s) :
    (update vtls opts now s).1.issues.map (·.caCerts) = s.issues.map (fun iss =>
      iss.caCerts.map (fun b => (b.1,
        if b.2.length ≤ 1 then b.2 else b.2.filter (fun c => now < c.notAfter)))) := by
  have hrot : rotationPhase vtls opts now s =
      (s, findRotationDeadlineForCA opts s, findRotationDeadlineForCerts opts s) := by
    simp [rotationPhase, hCA, hCerts, hv]
  have hca : caCleanupPhase now s =
      (cleanUpCACerts now s, findCleanUpDeadlineForCACerts (cleanUpCACerts now s)) := by
    simp [caCleanupPhase, hclean]
  have h1 : (update vtls opts now s).1 = (certCleanupPhase now (cleanUpCACerts now s)).1 := by
    simp only [update, hrot, hca]
  rw [h1, certCleanupPhase_caCerts]
  simp [cleanUpCACerts, cleanUpCertificateList, List.map_map]

/-- Witness for C1's amended statement at the concrete cleanup state. -/
theorem C1_witness :
    (update vtlsOk optsC1 10 stateC1).1.issues.map (·.caCerts) = stateC1.issues.map (fun iss =>
      iss.caCerts.map (fun b => (b.1,
        if b.2.length ≤ 1 then b.2 else b.2.filter (fun c => (10 : Int) < c.notAfter)))) :=
  C1_chain_cleanup vtlsOk optsC1 10 stateC1 (by decide) (by decide) (by decide) (by decide)

/-- Counterexample to C2 as stated: at clock 50 on a chain with singleton
bundle `[certCA2]` (the current CA) and singleton leaf list `[certLeaf2]`,
`update` returns 60, while the claimed minimum — whose CA cleanup deadline
ranges over bundle entries EXCEPT the current CA and whose leaf cleanup
deadline ranges over non-final entries only, both sets here empty — is 50. -/
theorem C2_counterexample :
    (update vtlsOk optsC2 50 stateC2).2 = 60 ∧
    claimC2NextWakeup optsC2 50 (update vtlsOk optsC2 50 stateC2).1 = 50 ∧
    claimC2NextWakeup optsC2 50 stateC2 = 50 ∧
    (60 : Int) ≠ 50 := by
  refine ⟨by decide, by decide, by decide, by decide⟩

/-- Counterexample to C7's "never negative": on a chain with no issues all
deadlines are immediate (the zero time), so a reconcile at clock 5 completes
without error and returns the negative requeue delay `-5`. -/
theorem C7_counterexample :
    Reconcile vtlsOk optsC2 5 stateEmpty = .ok (-5) ∧ (-5 : Int) < 0 := by
  refine ⟨rfl, by decide⟩

/-- C7 amended: every reconcile tick that completes without error returns
the requeue delay `updateAt - now()` — with no clamping, so the value can be
negative. -/
theorem C7_requeue_delay
    (vtls : CertificateIssue → String → Bool) (opts o : Options) (now : Int) (s : ChainState)
    (hok : opts.setDefaultsAndValidate = .ok o) :
    Reconcile vtls opts now s = .ok ((update vtls o now s).2 - now) := by
  simp [Reconcile, reconcileCertificates, chainUpdate, hok]

/-- Witness for C7's amended statement at concrete valid options. -/
theorem C7_witness :
    optsC2.setDefaultsAndValidate = .ok optsC2 ∧
    Reconcile vtlsOk optsC2 5 stateEmpty = .ok ((update vtlsOk optsC2 5 stateEmpty).2 - 5) :=
  ⟨rfl, C7_requeue_delay vtlsOk optsC2 optsC2 5 stateEmpty rfl⟩

/-- Counterexample to C8 as stated: the secret created by the write phase
for service `svc/ns` carries NO owner reference (its owner-reference list is
empty). -/
theorem C8_counterexample :
    writeObjectFromChain (mapServiceSecretFromChain chainIssuesC8) none (initSecret "svc" "ns") =
      .create secC8 ∧
    secC8.ownerRefs = [] := by
  refine ⟨by decide, rfl⟩

/-- C8 amended: whenever the write phase creates a per-service TLS secret
(the store slot is empty and the chain has an issue for the service's
hostname), the created secret has type `kubernetes.io/tls` and carries the
engine annotation `kubevirt.io/kube-admission-webhook`, but carries no owner
reference. -/
theorem C8_created_secret (name ns : String)
    (chainIssues : List (String × PemIssue)) (b : PemIssue)
    (hb : chainIssues.lookup (serviceHostname name ns) = some b) :
    writeObjectFromChain (mapServiceSecretFromChain chainIssues) none (initSecret name ns) =
      .create (mapServiceSecretFromChain chainIssues (initSecret name ns)) ∧
    (mapServiceSecretFromChain chainIssues (initSecret name ns)).typ = "kubernetes.io/tls" ∧
    (secretManagedAnnotationKey, "") ∈
      (mapServiceSecretFromChain chainIssues (initSecret name ns)).annotations ∧
    (mapServiceSecretFromChain chainIssues (initSecret name ns)).ownerRefs = [] := by
  have hmap : mapServiceSecretFromChain chainIssues (initSecret name ns) =
      { name := name, ns := ns, typ := "kubernetes.io/tls",
        annotations := [(secretManagedAnnotationKey, "")], ownerRefs := [],
        data := upsert "tls.crt" b.certPEM (upsert "tls.key" b.keyPEM []) } := by
    unfold mapServiceSecretFromChain initSecret
    dsimp only
    rw [hb]
  have hne : mapServiceSecretFromChain chainIssues (initSecret name ns) ≠ initSecret name ns := by
    rw [hmap]
    intro hcontra
    have h2 : ("kubernetes.io/tls" : String) = "" := congrArg KSecret.typ hcontra
    simp at h2
  refine ⟨?_, by rw [hmap], by rw [hmap]; simp, by rw [hmap]⟩
  simp [writeObjectFromChain, hne]

/-- Witness for C8's amended statement at the concrete chain data. -/
theorem C8_witness :
    chainIssuesC8.lookup (serviceHostname "svc" "ns") =
      some ({ keyPEM := "KEYPEM", certPEM := "CERTPEM" } : PemIssue) ∧
    writeObjectFromChain (mapServiceSecretFromChain chainIssuesC8) none (initSecret "svc" "ns") =
      .create (mapServiceSecretFromChain chainIssuesC8 (initSecret "svc" "ns")) ∧
    (mapServiceSecretFromChain chainIssuesC8 (initSecret "svc" "ns")).typ = "kubernetes.io/tls" ∧
    (secretManagedAnnotationKey, "") ∈
      (mapServiceSecretFromChain chainIssuesC8 (initSecret "svc" "ns")).annotations ∧
    (mapServiceSecretFromChain chainIssuesC8 (initSecret "svc" "ns")).ownerRefs = [] :=
  ⟨by decide, C8_created_secret "svc" "ns" chainIssuesC8
    { keyPEM := "KEYPEM", certPEM := "CERTPEM" } (by decide)⟩

theorem foldlMin_le (rest : List Int) (acc : Int) :
    rest.foldl (fun t e => if e < t then e else t) acc ≤ acc ∧
    ∀ x ∈ rest, rest.foldl (fun t e => if e < t then e else t) acc ≤ x := by
  induction rest generalizing acc with
  | nil => exact ⟨le_refl _, by simp⟩
  | cons e t ih =>
    simp only [List.foldl_cons]
    have hstep : (if e < acc then e else acc) ≤ acc ∧ (if e < acc then e else acc) ≤ e := by
      by_cases h : e < acc <;> simp [h] <;> omega
    refine ⟨le_trans (ih _).1 hstep.1, ?_⟩
    intro x hx
    rcases List.mem_cons.mp hx with rfl | hx2
    · exact le_trans (ih _).1 hstep.2
    · exact (ih _).2 x hx2

theorem minTime_le {l : List Int} {x : Int} (hx : x ∈ l) : minTime l ≤ x := by
  match l, hx with
  | a :: rest, hx =>
    unfold minTime
    rcases List.mem_cons.mp hx with rfl | hx2
    · exact (foldlMin_le rest x).1
    · exact (foldlMin_le rest a).2 x hx2

theorem getLast?_filter_of_last (p : Cert → Bool) (l : List Cert)
    (h : ∀ c, l.getLast? = some c → p c = true) :
    (l.filter p).getLast? = l.getLast? := by
  induction l with
  | nil => rfl
  | cons a t ih =>
    cases t with
    | nil =>
      have ha : p a = true := h a rfl
      simp [List.filter_cons, ha]
    | cons b t2 =>
      rw [List.getLast?_cons_cons] at h ⊢
      have ih2 := ih h
      by_cases hpa : p a = true
      · rw [List.filter_cons, if_pos hpa]
        have hne : (b :: t2).filter p ≠ [] := by
          have hsome : ((b :: t2).getLast?).isSome = true := by
            rw [List.getLast?_isSome]
            exact List.cons_ne_nil b t2
          obtain ⟨c, hc⟩ := Option.isSome_iff_exists.mp hsome
          have hcmem : c ∈ (b :: t2).filter p := by
            rw [List.mem_filter]
            exact ⟨List.mem_of_mem_getLast? hc, h c hc⟩
          exact List.ne_nil_of_mem hcmem
        rcases hxs : (b :: t2).filter p with _ | ⟨d, u⟩
        · exact absurd hxs hne
        · rw [List.getLast?_cons_cons, ← hxs, ih2]
      · rw [List.filter_cons, if_neg hpa]
        exact ih2

theorem getLast?_cleanUpCertificateList (now : Int) (l : List Cert)
    (h : ∀ c, l.getLast? = some c → now < c.notAfter) :
    (cleanUpCertificateList now l).getLast? = l.getLast? := by
  unfold cleanUpCertificateList
  by_cases hl : l.length ≤ 1
  · simp [hl]
  · simp only [hl, if_false]
    exact getLast?_filter_of_last _ l (fun c hc => by
      simpa using h c hc)

theorem fCA_cleanUpCerts (opts : Options) (now : Int) (s : ChainState) :
    findRotationDeadlineForCA opts (cleanUpCerts now s) = findRotationDeadlineForCA opts s := by
  unfold findRotationDeadlineForCA cleanUpCerts
  simp only [List.flatMap, List.map_map]
  rfl

theorem cCA_cleanUpCerts (now : Int) (s : ChainState) :
    findCleanUpDeadlineForCACerts (cleanUpCerts now s) = findCleanUpDeadlineForCACerts s := by
  unfold findCleanUpDeadlineForCACerts cleanUpCerts
  simp only [List.flatMap, List.map_map]
  rfl

theorem fCerts_cleanUpCACerts (opts : Options) (now : Int) (s : ChainState) :
    findRotationDeadlineForCerts opts (cleanUpCACerts now s) =
      findRotationDeadlineForCerts opts s := by
  unfold findRotationDeadlineForCerts cleanUpCACerts
  simp only [List.map_map]
  rfl

theorem cCerts_cleanUpCACerts (now : Int) (s : ChainState) :
    findCleanUpDeadlineForCerts (cleanUpCACerts now s) = findCleanUpDeadlineForCerts s := by
  unfold findCleanUpDeadlineForCerts cleanUpCACerts
  simp only [List.flatMap, List.map_map]
  rfl

theorem fCA_rotateCertsWithOverlap (opts : Options) (now : Int) (s : ChainState) :
    findRotationDeadlineForCA opts (rotateCertsWithOverlap opts now s) =
      findRotationDeadlineForCA opts s := by
  unfold findRotationDeadlineForCA rotateCertsWithOverlap rotateCerts setKeyAppendCert
  simp only [List.flatMap, List.map_map]
  rfl

theorem fCA_cleanUpCACerts_stable (opts : Options) (now : Int) (s : ChainState)
    (h : lastFreshCA now s) :
    findRotationDeadlineForCA opts (cleanUpCACerts now s) =
      findRotationDeadlineForCA opts s := by
  unfold findRotationDeadlineForCA
  have hds : ((cleanUpCACerts now s).issues.flatMap fun iss =>
        iss.caCerts.map fun b => listRotationDeadline opts.caOverlapInterval b.2)
      = s.issues.flatMap fun iss =>
        iss.caCerts.map fun b => listRotationDeadline opts.caOverlapInterval b.2 := by
    unfold cleanUpCACerts
    dsimp only
    unfold List.flatMap
    rw [List.map_map]
    congr 1
    apply List.map_congr_left
    intro iss hiss
    show ((iss.caCerts.map fun b => (b.1, cleanUpCertificateList now b.2)).map
        fun b => listRotationDeadline opts.caOverlapInterval b.2) = _
    rw [List.map_map]
    apply List.map_congr_left
    intro b hb
    show listRotationDeadline opts.caOverlapInterval (cleanUpCertificateList now b.2) = _
    unfold listRotationDeadline getLastCert
    rw [getLast?_cleanUpCertificateList now b.2 (h iss hiss b hb)]
  rw [hds]

theorem fCerts_cleanUpCerts_stable (opts : Options) (now : Int) (s : ChainState)
    (h : lastFreshCerts now s ∨ ∃ iss ∈ s.issues, iss.certs = []) :
    findRotationDeadlineForCerts opts (cleanUpCerts now s) =
      findRotationDeadlineForCerts opts s := by
  rcases h with h | ⟨iss0, hmem, hnil⟩
  · unfold findRotationDeadlineForCerts
    have hds : ((cleanUpCerts now s).issues.map fun iss =>
          listRotationDeadline opts.certOverlapInterval iss.certs)
        = s.issues.map fun iss => listRotationDeadline opts.certOverlapInterval iss.certs := by
      unfold cleanUpCerts
      dsimp only
      rw [List.map_map]
      apply List.map_congr_left
      intro iss hiss
      show listRotationDeadline opts.certOverlapInterval (cleanUpCertificateList now iss.certs) = _
      unfold listRotationDeadline getLastCert
      rw [getLast?_cleanUpCertificateList now iss.certs (h iss hiss)]
    rw [hds]
  · have hz : ∀ t : ChainState, (∃ iss ∈ t.issues, iss.certs = []) →
        findRotationDeadlineForCerts opts t = 0 := by
      intro t ⟨iss1, hm1, hn1⟩
      unfold findRotationDeadlineForCerts
      have hany : (t.issues.map fun iss =>
          listRotationDeadline opts.certOverlapInterval iss.certs).any Option.isNone = true := by
        rw [List.any_eq_true]
        refine ⟨listRotationDeadline opts.certOverlapInterval iss1.certs,
          List.mem_map_of_mem _ hm1, ?_⟩
        rw [hn1]
        rfl
      simp [hany]
    rw [hz s ⟨iss0, hmem, hnil⟩, hz (cleanUpCerts now s) ?_]
    refine ⟨{ iss0 with certs := cleanUpCertificateList now iss0.certs }, ?_, ?_⟩
    · exact List.mem_map_of_mem _ hmem
    · rw [hnil]
      rfl



theorem lastFreshCA_of_noRotate (vtls : CertificateIssue → String → Bool)
    (opts : Options) (now : Int) (s : ChainState)
    (hco : 0 ≤ opts.caOverlapInterval)
    (hlt : now < findRotationDeadlineForCA opts s)
    (hv : verifyTLSB vtls s = true) :
    lastFreshCA now s := by
  intro iss hiss b hb c hc
  have hvb : ∀ iss2 ∈ s.issues, ∀ b2 ∈ iss2.caCerts,
      b2.2.getLast? = some s.ca.keyPair.cert := by
    intro iss2 hiss2 b2 hb2
    rw [verifyTLSB, List.all_eq_true] at hv
    have h2 := hv iss2 hiss2
    rw [List.all_eq_true] at h2
    have h3 := h2 b2 hb2
    rw [Bool.and_eq_true, beq_iff_eq] at h3
    exact h3.1
  have hnone : ((s.issues.flatMap fun iss2 =>
      iss2.caCerts.map fun b2 =>
        listRotationDeadline opts.caOverlapInterval b2.2).any Option.isNone) = false := by
    rw [List.any_eq_false]
    intro d hd
    rw [List.mem_flatMap] at hd
    obtain ⟨iss2, hiss2, hd2⟩ := hd
    rw [List.mem_map] at hd2
    obtain ⟨b2, hb2, rfl⟩ := hd2
    simp [listRotationDeadline, getLastCert, hvb iss2 hiss2 b2 hb2]
  have hfca : findRotationDeadlineForCA opts s =
      minTime ((s.issues.flatMap fun iss2 =>
        iss2.caCerts.map fun b2 =>
          listRotationDeadline opts.caOverlapInterval b2.2).filterMap id) := by
    unfold findRotationDeadlineForCA
    simp [hnone]
  have hmem : nextRotationDeadlineForCert c opts.caOverlapInterval ∈
      ((s.issues.flatMap fun iss2 =>
        iss2.caCerts.map fun b2 =>
          listRotationDeadline opts.caOverlapInterval b2.2).filterMap id) := by
    rw [List.mem_filterMap]
    refine ⟨some (nextRotationDeadlineForCert c opts.caOverlapInterval), ?_, rfl⟩
    rw [List.mem_flatMap]
    refine ⟨iss, hiss, ?_⟩
    rw [List.mem_map]
    exact ⟨b, hb, by simp [listRotationDeadline, getLastCert, hc]⟩
  have hlast := lt_of_lt_of_le (hfca ▸ hlt) (minTime_le hmem)
  unfold nextRotationDeadlineForCert at hlast
  omega

theorem lastFreshCerts_of_noRotate (opts : Options) (now : Int) (s : ChainState)
    (hto : 0 ≤ opts.certOverlapInterval)
    (hlt : now < findRotationDeadlineForCerts opts s)
    (hne : ∀ iss ∈ s.issues, iss.certs ≠ []) :
    lastFreshCerts now s := by
  intro iss hiss c hc
  have hnone : ((s.issues.map fun iss2 =>
      listRotationDeadline opts.certOverlapInterval iss2.certs).any Option.isNone) = false := by
    rw [List.any_eq_false]
    intro d hd
    rw [List.mem_map] at hd
    obtain ⟨iss2, hiss2, rfl⟩ := hd
    have h2 : iss2.certs.getLast? ≠ none := by
      intro hnil
      exact hne iss2 hiss2 (List.getLast?_eq_none_iff.mp hnil)
    rcases h3 : iss2.certs.getLast? with _ | c2
    · exact absurd h3 h2
    · simp [listRotationDeadline, getLastCert, h3]
  have hfcerts : findRotationDeadlineForCerts opts s =
      minTime ((s.issues.map fun iss2 =>
        listRotationDeadline opts.certOverlapInterval iss2.certs).filterMap id) := by
    unfold findRotationDeadlineForCerts
    simp [hnone]
  have hmem : nextRotationDeadlineForCert c opts.certOverlapInterval ∈
      ((s.issues.map fun iss2 =>
        listRotationDeadline opts.certOverlapInterval iss2.certs).filterMap id) := by
    rw [List.mem_filterMap]
    refine ⟨some (nextRotationDeadlineForCert c opts.certOverlapInterval), ?_, rfl⟩
    rw [List.mem_map]
    exact ⟨iss, hiss, by simp [listRotationDeadline, getLastCert, hc]⟩
  have hlast := lt_of_lt_of_le (hfcerts ▸ hlt) (minTime_le hmem)
  unfold nextRotationDeadlineForCert at hlast
  omega

theorem rotateAll_lastFresh (opts : Options) (now : Int) (s : ChainState)
    (hcr : 0 < opts.caRotateInterval) (htr : 0 < opts.certRotateInterval) :
    lastFreshCA now (rotateAll opts now s) ∧ lastFreshCerts now (rotateAll opts now s) := by
  constructor
  · intro iss hiss b hb c hc
    simp only [rotateAll, rotateCertsWithoutOverlap, rotateCerts, setCaKeyPair,
      setKeyResetCert, List.map_map, List.mem_map, Function.comp] at hiss
    obtain ⟨iss0, hiss0, rfl⟩ := hiss
    simp only [List.mem_map] at hb
    obtain ⟨b0, hb0, rfl⟩ := hb
    simp only at hc
    rw [List.getLast?_append] at hc
    have hc2 : (newCA s.ca.name now opts.caRotateInterval).cert = c := Option.some.inj hc
    rw [← hc2]
    show now < now + opts.caRotateInterval
    omega
  · intro iss hiss c hc
    simp only [rotateAll, rotateCertsWithoutOverlap, rotateCerts, setCaKeyPair,
      setKeyResetCert, List.map_map, List.mem_map, Function.comp] at hiss
    obtain ⟨iss0, hiss0, rfl⟩ := hiss
    simp only at hc
    have hc2 : (newServerKeyPair (newCA s.ca.name now opts.caRotateInterval)
        iss0.name iss0.ips iss0.hostnames now opts.certRotateInterval).cert = c :=
      Option.some.inj hc
    rw [← hc2]
    show now < now + opts.certRotateInterval
    omega

theorem lastFreshCA_rotateCertsWithOverlap (opts : Options) (now : Int) (s : ChainState)
    (h : lastFreshCA now s) :
    lastFreshCA now (rotateCertsWithOverlap opts now s) := by
  intro iss hiss b hb c hc
  simp only [rotateCertsWithOverlap, rotateCerts, setKeyAppendCert, List.mem_map] at hiss
  obtain ⟨iss0, hiss0, rfl⟩ := hiss
  exact h iss0 hiss0 b hb c hc

theorem rotateCertsWithOverlap_lastFreshCerts (opts : Options) (now : Int) (s : ChainState)
    (htr : 0 < opts.certRotateInterval) :
    lastFreshCerts now (rotateCertsWithOverlap opts now s) := by
  intro iss hiss c hc
  simp only [rotateCertsWithOverlap, rotateCerts, setKeyAppendCert, List.mem_map] at hiss
  obtain ⟨iss0, hiss0, rfl⟩ := hiss
  simp only at hc
  rw [List.getLast?_append] at hc
  have hc2 : (newServerKeyPair s.ca.keyPair iss0.name iss0.ips iss0.hostnames now
      opts.certRotateInterval).cert = c := Option.some.inj hc
  rw [← hc2]
  show now < now + opts.certRotateInterval
  omega

theorem rotationPhase_spec (vtls : CertificateIssue → String → Bool)
    (opts : Options) (now : Int) (s : ChainState)
    (hco : 0 ≤ opts.caOverlapInterval) (hcr : 0 < opts.caRotateInterval)
    (hto : 0 ≤ opts.certOverlapInterval) (htr : 0 < opts.certRotateInterval) :
    ∃ s1, rotationPhase vtls opts now s =
        (s1, findRotationDeadlineForCA opts s1, findRotationDeadlineForCerts opts s1) ∧
      lastFreshCA now s1 ∧
      (lastFreshCerts now s1 ∨ ∃ iss ∈ s1.issues, iss.certs = []) := by
  by_cases h1 : now < findRotationDeadlineForCA opts s
  · by_cases hv : verifyTLSB vtls s = true
    · by_cases h2 : now < findRotationDeadlineForCerts opts s
      · refine ⟨s, ?_, lastFreshCA_of_noRotate vtls opts now s hco h1 hv, ?_⟩
        · simp [rotationPhase, h1, h2, hv]
        · by_cases hne : ∃ iss ∈ s.issues, iss.certs = []
          · exact Or.inr hne
          · push_neg at hne
            exact Or.inl (lastFreshCerts_of_noRotate opts now s hto h2 hne)
      · refine ⟨rotateCertsWithOverlap opts now s, ?_,
          lastFreshCA_rotateCertsWithOverlap opts now s
            (lastFreshCA_of_noRotate vtls opts now s hco h1 hv),
          Or.inl (rotateCertsWithOverlap_lastFreshCerts opts now s htr)⟩
        simp [rotationPhase, h1, h2, hv, fCA_rotateCertsWithOverlap]
    · have hOK := rotateAll_lastFresh opts now s hcr htr
      refine ⟨rotateAll opts now s, ?_, hOK.1, Or.inl hOK.2⟩
      have hv2 : verifyTLSB vtls s = false := by
        cases h : verifyTLSB vtls s
        · rfl
        · exact absurd h hv
      simp [rotationPhase, h1, hv2]
  · have hOK := rotateAll_lastFresh opts now s hcr htr
    refine ⟨rotateAll opts now s, ?_, hOK.1, Or.inl hOK.2⟩
    simp [rotationPhase, h1]

/-- C2 amended: with nonnegative overlap intervals and positive rotate
intervals, the timestamp returned by `update` equals the minimum of the four
deadlines recomputed on the RESULTING chain state, where the CA cleanup
deadline ranges over ALL bundle entries (the current CA included) and the
leaf cleanup deadline over ALL issued entries (the final entry included). -/
theorem C2_updateAt_min_deadlines (vtls : CertificateIssue → String → Bool)
    (opts : Options) (now : Int) (s : ChainState)
    (hco : 0 ≤ opts.caOverlapInterval) (hcr : 0 < opts.caRotateInterval)
    (hto : 0 ≤ opts.certOverlapInterval) (htr : 0 < opts.certRotateInterval) :
    (update vtls opts now s).2 = minTime
      [findRotationDeadlineForCA opts (update vtls opts now s).1,
       findRotationDeadlineForCerts opts (update vtls opts now s).1,
       findCleanUpDeadlineForCACerts (update vtls opts now s).1,
       findCleanUpDeadlineForCerts (update vtls opts now s).1] := by
  obtain ⟨s1, hrots, hfca, hfcerts⟩ := rotationPhase_spec vtls opts now s hco hcr hto htr
  have hca2 : ∃ s2, caCleanupPhase now s1 = (s2, findCleanUpDeadlineForCACerts s2) ∧
      findRotationDeadlineForCA opts s2 = findRotationDeadlineForCA opts s1 ∧
      findRotationDeadlineForCerts opts s2 = findRotationDeadlineForCerts opts s1 ∧
      findCleanUpDeadlineForCerts s2 = findCleanUpDeadlineForCerts s1 ∧
      (lastFreshCerts now s2 ∨ ∃ iss ∈ s2.issues, iss.certs = []) := by
    by_cases hc1 : now < findCleanUpDeadlineForCACerts s1
    · exact ⟨s1, by simp [caCleanupPhase, hc1], rfl, rfl, rfl, hfcerts⟩
    · refine ⟨cleanUpCACerts now s1, by simp [caCleanupPhase, hc1],
        fCA_cleanUpCACerts_stable opts now s1 hfca,
        fCerts_cleanUpCACerts opts now s1,
        cCerts_cleanUpCACerts now s1, ?_⟩
      rcases hfcerts with h | ⟨iss0, hm, hn⟩
      · left
        intro iss hiss c hc
        simp only [cleanUpCACerts, List.mem_map] at hiss
        obtain ⟨iss1, hiss1, rfl⟩ := hiss
        exact h iss1 hiss1 c hc
      · right
        refine ⟨_, List.mem_map_of_mem _ hm, hn⟩
  obtain ⟨s2, hca2eq, hA2, hB2, hD2, hfcerts2⟩ := hca2
  have hcc : ∃ s3, certCleanupPhase now s2 = (s3, findCleanUpDeadlineForCerts s3) ∧
      findRotationDeadlineForCA opts s3 = findRotationDeadlineForCA opts s2 ∧
      findRotationDeadlineForCerts opts s3 = findRotationDeadlineForCerts opts s2 ∧
      findCleanUpDeadlineForCACerts s3 = findCleanUpDeadlineForCACerts s2 := by
    by_cases hc2 : now < findCleanUpDeadlineForCerts s2
    · exact ⟨s2, by simp [certCleanupPhase, hc2], rfl, rfl, rfl⟩
    · exact ⟨cleanUpCerts now s2, by simp [certCleanupPhase, hc2],
        fCA_cleanUpCerts opts now s2,
        fCerts_cleanUpCerts_stable opts now s2 hfcerts2,
        cCA_cleanUpCerts now s2⟩
  obtain ⟨s3, hcceq, hA3, hB3, hC3⟩ := hcc
  have hupd : update vtls opts now s =
      (s3, minTime [findRotationDeadlineForCA opts s1, findRotationDeadlineForCerts opts s1,
        findCleanUpDeadlineForCACerts s2, findCleanUpDeadlineForCerts s3]) := by
    simp only [update, hrots, hca2eq, hcceq]
  rw [hupd]
  have e1 : findRotationDeadlineForCA opts s1 = findRotationDeadlineForCA opts s3 := by
    rw [hA3, hA2]
  have e2 : findRotationDeadlineForCerts opts s1 = findRotationDeadlineForCerts opts s3 := by
    rw [hB3, hB2]
  have e3 : findCleanUpDeadlineForCACerts s2 = findCleanUpDeadlineForCACerts s3 := hC3.symm
  rw [e1, e2, e3]

/-- Witness for C2's amended statement at a concrete chain and clock. -/
theorem C2_witness :
    (0 : Int) ≤ optsC1.caOverlapInterval ∧ (0 : Int) < optsC1.caRotateInterval ∧
    (0 : Int) ≤ optsC1.certOverlapInterval ∧ (0 : Int) < optsC1.certRotateInterval ∧
    (update vtlsOk optsC1 10 stateC1).2 = minTime
      [findRotationDeadlineForCA optsC1 (update vtlsOk optsC1 10 stateC1).1,
       findRotationDeadlineForCerts optsC1 (update vtlsOk optsC1 10 stateC1).1,
       findCleanUpDeadlineForCACerts (update vtlsOk optsC1 10 stateC1).1,
       findCleanUpDeadlineForCerts (update vtlsOk optsC1 10 stateC1).1] :=
  ⟨by decide, by decide, by decide, by decide,
    C2_updateAt_min_deadlines vtlsOk optsC1 10 stateC1 (by decide) (by decide) (by decide) (by decide)⟩
